import Mathlib

/-!
Shallow embedding of the Library Management System (`code.py`): a terminal
application over two JSON stores (users, books) with login, search,
checkout/return circulation and librarian administration.  Interactive
functions are modelled as pure state transformers: the loaded collection and
the user's keyboard inputs are explicit arguments, the printed outcome is an
explicit result value, and "persist" is recorded as a `saved` flag meaning
`save_data` was invoked on the new collection.
-/

namespace LibraryMS

/-- `BORROW_DURATION_DAYS = 14` in `code.py`. -/
def BORROW_DURATION_DAYS : Nat := 14

/-- A user record as stored in `library_users.json`: `{password, role}`. -/
structure User where
  password : String
  role : String
deriving DecidableEq

/-- The users store: a mapping from username to user record, modelled as an
association list in insertion order. -/
abbrev Users := List (String × User)

/-- A book record as stored in `library_books.json`.  `borrower` and
`due_date` are nullable; `summary` is an optional key read via
`book.get("summary", "")`. -/
structure Book where
  id : Nat
  title : String
  author : String
  status : String
  borrower : Option String
  due_date : Option String
  summary : Option String
deriving DecidableEq

/-! ### Calendar model (Python `datetime.date`)

Dates are proleptic-Gregorian ordinals (day 1 = 0001-01-01), exactly the
representation behind `datetime.date`; `date + timedelta(days=k)` is ordinal
addition, and `isoformat` renders the ordinal as `YYYY-MM-DD` using CPython's
`_ord2ymd` algorithm. -/

/-- Cumulative day counts before each month (index 0 = before January). -/
def daysBeforeMonthList (leap : Bool) : List Nat :=
  if leap then [0, 31, 60, 91, 121, 152, 182, 213, 244, 274, 305, 335]
  else [0, 31, 59, 90, 120, 151, 181, 212, 243, 273, 304, 334]

/-- CPython's `_ord2ymd`: convert a Gregorian ordinal to (year, month, day). -/
def ord2ymd (ordDay : Nat) : Nat × Nat × Nat :=
  let n := ordDay - 1
  let n400 := n / 146097
  let r400 := n % 146097
  let n100 := r400 / 36524
  let r100 := r400 % 36524
  let n4 := r100 / 1461
  let r4 := r100 % 1461
  let n1 := r4 / 365
  let rd := r4 % 365
  if n1 == 4 || n100 == 4 then
    (n400 * 400 + n100 * 100 + n4 * 4 + n1, 12, 31)
  else
    let year := n400 * 400 + n100 * 100 + n4 * 4 + n1 + 1
    let leap := n1 == 3 && (n4 != 24 || n100 == 3)
    let dbm := daysBeforeMonthList leap
    let m := (List.range 12).foldl (fun acc i => if dbm.getD i 0 ≤ rd then i + 1 else acc) 1
    (year, m, rd - dbm.getD (m - 1) 0 + 1)

/-- Zero-pad to two digits. -/
def pad2 (n : Nat) : String := if n < 10 then "0" ++ toString n else toString n

/-- Zero-pad to four digits. -/
def pad4 (n : Nat) : String :=
  if n < 10 then "000" ++ toString n
  else if n < 100 then "00" ++ toString n
  else if n < 1000 then "0" ++ toString n
  else toString n

/-- `date.fromordinal(d).isoformat()`: the `YYYY-MM-DD` string of an ordinal. -/
def isoformat (ordDay : Nat) : String :=
  let ymd := ord2ymd ordDay
  pad4 ymd.1 ++ "-" ++ pad2 ymd.2.1 ++ "-" ++ pad2 ymd.2.2

/-! ### String helpers (Python `str` methods used by `code.py`) -/

/-- Python `str.lower()`: character-wise lowercasing. -/
def toLowerStr (s : String) : String := ⟨s.data.map Char.toLower⟩

/-- Python `str.strip()`: drop leading and trailing whitespace. -/
def trimStr (s : String) : String :=
  ⟨((s.data.dropWhile Char.isWhitespace).reverse.dropWhile Char.isWhitespace).reverse⟩

/-- Python `str.isdigit()` restricted to ASCII: nonempty and all digits. -/
def isdigit (s : String) : Bool := !s.isEmpty && s.data.all Char.isDigit

/-- Python `int(s)` on a digit string. -/
def parseNat (s : String) : Nat :=
  s.data.foldl (fun acc c => acc * 10 + (c.toNat - 48)) 0

/-- Does the second character list start the first? -/
def listStarts : List Char → List Char → Bool
  | [], _ => true
  | _ :: _, [] => false
  | a :: as, b :: bs => a == b && listStarts as bs

/-- Does `need` occur as a contiguous run inside the second list? -/
def listHasSub (need : List Char) : List Char → Bool
  | [] => need.isEmpty
  | c :: t => listStarts need (c :: t) || listHasSub need t

/-- Python `sub in s`: substring containment. -/
def strContains (s sub : String) : Bool := listHasSub sub.data s.data

/-! ### Persistence layer (`load_data`) -/

/-- The observable states of a store file: absent, present but failing JSON
deserialization, or present with valid contents. -/
inductive StoreFile (α : Type) where
  | absent
  | malformed
  | valid (data : α)
deriving DecidableEq

/-- Outcome of `load_data`: the returned collection, whether the corrupt-file
warning was printed, and whether an exception escaped (never). -/
structure LoadOut (α : Type) where
  result : α
  warned : Bool
  raised : Bool
deriving DecidableEq

/-- `load_data(filename)`: missing file and `JSONDecodeError` both yield the
empty default (`{}` for the users file, `[]` for the books file), the latter
after printing a warning; no exception propagates. -/
def load_data {α : Type} (emptyDefault : α) : StoreFile α → LoadOut α
  | .absent => ⟨emptyDefault, false, false⟩
  | .malformed => ⟨emptyDefault, true, false⟩
  | .valid d => ⟨d, false, false⟩

/-- `load_data(USERS_FILE)`: the empty default is the empty mapping. -/
def load_users : StoreFile Users → LoadOut Users := load_data []

/-- `load_data(BOOKS_FILE)`: the empty default is the empty list. -/
def load_books : StoreFile (List Book) → LoadOut (List Book) := load_data []

/-! ### Seed data (`initialize_data`) -/

/-- The three seed accounts written on first run. -/
def default_users : Users :=
  [("admin", ⟨"admin123", "librarian"⟩),
   ("mridul", ⟨"jamesbond007", "student"⟩),
   ("test", ⟨"test", "student"⟩)]

/-- The four seed books written on first run; `Sapiens` is pre-seeded as
checked out with a due date 5 days before `today`. -/
def default_books (today : Nat) : List Book :=
  [⟨1, "1984", "George Orwell", "Available", none, none,
    some "A chilling portrait of a society under total surveillance and thought control."⟩,
   ⟨2, "Leonardo Da Vinci", "Walter Isacsson", "Available", none, none,
    some "An acclaimed biography exploring the life and mind of the ultimate Renaissance man, connecting his art and science."⟩,
   ⟨3, "Sapiens: A Brief History of Humankind", "Yuval Noah Harari", "Checked Out",
    some "student1", some (isoformat (today - 5)),
    some "An exploration of human history from the Stone Age to the present."⟩,
   ⟨4, "Dune", "Frank Herbert", "Available", none, none,
    some "Epic science fiction novel set on the desert planet Arrakis."⟩]

/-! ### Search (`search_books`) -/

/-- The match test of `search_books`: the query occurs in the lowercased
title, author, or summary (`book.get("summary", "")`). -/
def book_matches (query : String) (book : Book) : Bool :=
  strContains (toLowerStr book.title) query ||
  strContains (toLowerStr book.author) query ||
  strContains (toLowerStr (book.summary.getD "")) query

/-- Observable outcome of `search_books`: empty-catalog early return (before
the query prompt), empty-query error, or the filtered result list (an empty
list prints "No books found"). -/
inductive SearchOutcome where
  | emptyCatalog
  | emptyQuery
  | results (rs : List Book)
deriving DecidableEq

/-- `search_books()`: on an empty catalog return before prompting; otherwise
lowercase-and-strip the query, reject it if empty, else filter the catalog in
storage order by `book_matches`. -/
def search_books (books : List Book) (rawQuery : String) : SearchOutcome :=
  if books.isEmpty then .emptyCatalog
  else
    let query := trimStr (toLowerStr rawQuery)
    if query.isEmpty then .emptyQuery
    else .results (books.filter (book_matches query))

/-! ### Checkout (`checkout_book`) -/

/-- Observable outcome of `checkout_book`: rejected non-numeric id, successful
checkout (title and printed due date), unavailable (title and its current due
date), or id not found. -/
inductive CheckoutResult where
  | invalidId
  | checkedOut (title : String) (dueDate : String)
  | unavailable (title : String) (dueDate : Option String)
  | notFound (bookId : Nat)
deriving DecidableEq

/-- Result state of `checkout_book`: the in-memory collection after the call,
the printed outcome, and whether `save_data` was invoked. -/
structure CheckoutOut where
  books : List Book
  result : CheckoutResult
  saved : Bool
deriving DecidableEq

/-- The `for book in books` loop of `checkout_book`: first id match is
processed (mutate-and-save if `Available`, else report unavailability) and the
loop breaks; falling off the end reports not-found. -/
def checkoutScan (username : String) (book_id : Nat) (today : Nat) :
    List Book → CheckoutOut
  | [] => ⟨[], .notFound book_id, false⟩
  | book :: rest =>
    if book.id == book_id then
      if book.status == "Available" then
        let due := isoformat (today + BORROW_DURATION_DAYS)
        ⟨{ book with
             status := "Checked Out"
             borrower := some username
             due_date := some due } :: rest,
         .checkedOut book.title due, true⟩
      else
        ⟨book :: rest, .unavailable book.title book.due_date, false⟩
    else
      let out := checkoutScan username book_id today rest
      ⟨book :: out.books, out.result, out.saved⟩

/-- `checkout_book(username)` on the loaded collection, the id string typed at
the prompt, and today's ordinal date. -/
def checkout_book (books : List Book) (username idStr : String) (today : Nat) :
    CheckoutOut :=
  if !isdigit idStr then ⟨books, .invalidId, false⟩
  else checkoutScan username (parseNat idStr) today books

/-! ### Return (`return_book`) -/

/-- Observable outcome of `return_book`. `nothingToReturn` carries whether the
librarian-flavoured message was printed; `returned` carries the prior
borrower; `accessDenied` names the actual borrower. -/
inductive ReturnResult where
  | nothingToReturn (isLibrarian : Bool)
  | invalidId
  | returned (title : String) (originalBorrower : Option String)
  | accessDenied (borrower : Option String)
  | alreadyAvailable (title : String)
  | notFound (bookId : Nat)
deriving DecidableEq

/-- Result state of `return_book`: the checked-out books displayed before the
prompt, the collection after the call, the printed outcome, and whether
`save_data` was invoked. -/
structure ReturnOut where
  displayed : List Book
  books : List Book
  result : ReturnResult
  saved : Bool
deriving DecidableEq

/-- The `borrowed_books` list built by `return_book`: checked-out books, all
of them for a librarian, only the caller's own otherwise. -/
def borrowed_books (books : List Book) (username role : String) : List Book :=
  books.filter fun book =>
    book.status == "Checked Out" &&
      (role == "librarian" || book.borrower == some username)

/-- The `for book in books` loop of `return_book`: first id match is
processed (clear-and-save when permitted, access denied when a foreign
non-librarian, already-available otherwise) and the loop breaks. -/
def returnScan (username role : String) (book_id : Nat) :
    List Book → List Book × ReturnResult × Bool
  | [] => ([], .notFound book_id, false)
  | book :: rest =>
    if book.id == book_id then
      if book.status == "Checked Out" then
        if role == "librarian" || book.borrower == some username then
          ({ book with
               status := "Available"
               borrower := none
               due_date := none } :: rest,
           .returned book.title book.borrower, true)
        else
          (book :: rest, .accessDenied book.borrower, false)
      else
        (book :: rest, .alreadyAvailable book.title, false)
    else
      let out := returnScan username role book_id rest
      (book :: out.1, out.2.1, out.2.2)

/-- `return_book(username, role)` on the loaded collection and the id string
typed at the prompt.  When the visible subset is empty the function returns
before the prompt, so the id string is never read. -/
def return_book (books : List Book) (username role idStr : String) : ReturnOut :=
  let visible := borrowed_books books username role
  if visible.isEmpty then
    ⟨visible, books, .nothingToReturn (role == "librarian"), false⟩
  else if !isdigit idStr then
    ⟨visible, books, .invalidId, false⟩
  else
    let scan := returnScan username role (parseNat idStr) books
    ⟨visible, scan.1, scan.2.1, scan.2.2⟩

/-! ### Add book (`add_book`) -/

/-- Observable outcome of `add_book`. -/
inductive AddResult where
  | emptyFields
  | duplicate (conflictId : Nat)
  | added (newId : Nat) (title author : String)
deriving DecidableEq

/-- Result state of `add_book`. -/
structure AddOut where
  books : List Book
  result : AddResult
  saved : Bool
deriving DecidableEq

/-- `max(book["id"] for book in books) + 1 if books else 1`. -/
def next_id (books : List Book) : Nat :=
  match books.map (fun b => b.id) with
  | [] => 1
  | i :: is => is.foldl Nat.max i + 1

/-- The duplicate check of `add_book`: the first existing record whose title
and author both match case-insensitively. -/
def find_duplicate (books : List Book) (title author : String) : Option Book :=
  books.find? fun book =>
    toLowerStr book.title == toLowerStr title &&
      toLowerStr book.author == toLowerStr author

/-- `add_book()` on the loaded collection and the three strings typed at the
prompts (stripped on read). -/
def add_book (books : List Book) (rawTitle rawAuthor rawSummary : String) :
    AddOut :=
  let nid := next_id books
  let title := trimStr rawTitle
  let author := trimStr rawAuthor
  let summary := trimStr rawSummary
  if title.isEmpty || author.isEmpty then ⟨books, .emptyFields, false⟩
  else
    match find_duplicate books title author with
    | some book => ⟨books, .duplicate book.id, false⟩
    | none =>
      ⟨books ++ [⟨nid, title, author, "Available", none, none, some summary⟩],
       .added nid title author, true⟩

/-! ### Login (`login`) -/

/-- Observable outcome of `login`: process exit on an empty users store,
success with the session pair, process exit after the third failure, or
blocking on further keyboard input (the supplied input list ran out). -/
inductive LoginResult where
  | noUsers
  | success (username role : String)
  | lockedOut
  | awaitingInput
deriving DecidableEq

/-- `users.get(username)` on the association-list model of the users store. -/
def lookupUser (users : Users) (username : String) : Option User :=
  (users.find? fun p => p.1 == username).map Prod.snd

/-- Does one (username, password) prompt answer pass the check of `login`
(after stripping both inputs)? -/
def credOk (users : Users) (p : String × String) : Bool :=
  match lookupUser users (trimStr p.1) with
  | some d => d.password == trimStr p.2
  | none => false

/-- The `while attempts > 0` loop of `login`, with the remaining attempt
counter and the stream of prompt answers explicit. -/
def loginAttempts (users : Users) : Nat → List (String × String) → LoginResult
  | 0, _ => .lockedOut
  | _ + 1, [] => .awaitingInput
  | n + 1, p :: rest =>
    match lookupUser users (trimStr p.1) with
    | some d =>
      if d.password == trimStr p.2 then .success (trimStr p.1) d.role
      else loginAttempts users n rest
    | none => loginAttempts users n rest

/-- `login()`: exit if the users store is empty, otherwise run up to 3
attempts over the supplied prompt answers. -/
def login (users : Users) (inputs : List (String × String)) : LoginResult :=
  if users.isEmpty then .noUsers else loginAttempts users 3 inputs

/-! ### The book invariant -/

/-- The record-level invariant:
`(status == Available) ⟺ (borrower == null) ⟺ (due_date == null)`. -/
def bookInvariant (b : Book) : Bool :=
  ((b.status == "Available") == (b.borrower == none)) &&
  ((b.status == "Available") == (b.due_date == none))

/-- The invariant over a whole collection. -/
def booksInvariant (books : List Book) : Bool := books.all bookInvariant

/-! ### Helper lemmas -/

theorem booksInvariant_nil : booksInvariant [] = true := rfl

theorem booksInvariant_cons (b : Book) (l : List Book) :
    booksInvariant (b :: l) = (bookInvariant b && booksInvariant l) := rfl

theorem booksInvariant_append (l₁ l₂ : List Book) :
    booksInvariant (l₁ ++ l₂) = (booksInvariant l₁ && booksInvariant l₂) :=
  List.all_append

theorem bookInvariant_checkout (b : Book) (u d : String) :
    bookInvariant
      { b with
          status := "Checked Out"
          borrower := some u
          due_date := some d } = true := rfl

theorem bookInvariant_cleared (b : Book) :
    bookInvariant
      { b with
          status := "Available"
          borrower := none
          due_date := none } = true := rfl

theorem checkoutScan_invariant (username : String) (book_id today : Nat) :
    ∀ books : List Book, booksInvariant books = true →
      booksInvariant (checkoutScan username book_id today books).books = true := by
  intro books
  induction books with
  | nil => intro h; exact h
  | cons b rest ih =>
    intro h
    rw [booksInvariant_cons, Bool.and_eq_true] at h
    unfold checkoutScan
    by_cases hid : (b.id == book_id) = true
    · by_cases hst : (b.status == "Available") = true
      · simp only [hid, hst, if_true]
        rw [booksInvariant_cons, bookInvariant_checkout, Bool.true_and]
        exact h.2
      · rw [Bool.not_eq_true] at hst
        simp only [hid, if_true, hst, Bool.false_eq_true, if_false]
        rw [booksInvariant_cons, h.1, Bool.true_and]
        exact h.2
    · rw [Bool.not_eq_true] at hid
      simp only [hid, Bool.false_eq_true, if_false]
      rw [booksInvariant_cons, h.1, Bool.true_and]
      exact ih h.2

theorem returnScan_invariant (username role : String) (book_id : Nat) :
    ∀ books : List Book, booksInvariant books = true →
      booksInvariant (returnScan username role book_id books).1 = true := by
  intro books
  induction books with
  | nil => intro h; exact h
  | cons b rest ih =>
    intro h
    rw [booksInvariant_cons, Bool.and_eq_true] at h
    unfold returnScan
    by_cases hid : (b.id == book_id) = true
    · by_cases hst : (b.status == "Checked Out") = true
      · by_cases hperm : (role == "librarian" || b.borrower == some username) = true
        · simp only [hid, hst, hperm, if_true]
          rw [booksInvariant_cons, bookInvariant_cleared, Bool.true_and]
          exact h.2
        · rw [Bool.not_eq_true] at hperm
          simp only [hid, hst, if_true, hperm, Bool.false_eq_true, if_false]
          rw [booksInvariant_cons, h.1, Bool.true_and]
          exact h.2
      · rw [Bool.not_eq_true] at hst
        simp only [hid, if_true, hst, Bool.false_eq_true, if_false]
        rw [booksInvariant_cons, h.1, Bool.true_and]
        exact h.2
    · rw [Bool.not_eq_true] at hid
      simp only [hid, Bool.false_eq_true, if_false]
      rw [booksInvariant_cons, h.1, Bool.true_and]
      exact ih h.2

/-! ### C1 -/

/-- C1: every book in the seed catalog satisfies
`(status == Available) ⟺ (borrower == null) ⟺ (due_date == null)`, and the
invariant is preserved by `checkout_book` (which sets status, borrower and
due date together), by `return_book` (which clears borrower and due date
exactly when it sets status to Available), and by `add_book` (which appends
an Available record with null borrower and due date). -/
theorem books_invariant_preserved :
    (∀ today : Nat, booksInvariant (default_books today) = true)
    ∧ (∀ (books : List Book) (username idStr : String) (today : Nat),
        booksInvariant books = true →
        booksInvariant (checkout_book books username idStr today).books = true)
    ∧ (∀ (books : List Book) (username role idStr : String),
        booksInvariant books = true →
        booksInvariant (return_book books username role idStr).books = true)
    ∧ (∀ (books : List Book) (rawTitle rawAuthor rawSummary : String),
        booksInvariant books = true →
        booksInvariant (add_book books rawTitle rawAuthor rawSummary).books = true) := by
  refine ⟨fun today => rfl, ?_, ?_, ?_⟩
  · intro books username idStr today h
    unfold checkout_book
    by_cases hd : isdigit idStr = true
    · simp only [hd, Bool.not_true, if_false]
      exact checkoutScan_invariant username (parseNat idStr) today books h
    · rw [Bool.not_eq_true] at hd
      simp only [hd, Bool.not_false, if_true]
      exact h
  · intro books username role idStr h
    unfold return_book
    by_cases hv : (borrowed_books books username role).isEmpty = true
    · simp only [hv, if_true]
      exact h
    · rw [Bool.not_eq_true] at hv
      by_cases hd : isdigit idStr = true
      · simp only [hv, hd, Bool.not_true, if_false]
        exact returnScan_invariant username role (parseNat idStr) books h
      · rw [Bool.not_eq_true] at hd
        simp only [hv, hd, Bool.not_false, if_true, if_false]
        exact h
  · intro books rawTitle rawAuthor rawSummary h
    unfold add_book
    by_cases he : ((trimStr rawTitle).isEmpty || (trimStr rawAuthor).isEmpty) = true
    · simp only [he, if_true]
      exact h
    · rw [Bool.not_eq_true] at he
      simp only [he, Bool.false_eq_true, if_false]
      cases hf : find_duplicate books (trimStr rawTitle) (trimStr rawAuthor) with
      | some b => exact h
      | none =>
        show booksInvariant (books ++ [_]) = true
        rw [booksInvariant_append, h, Bool.true_and]
        rfl

/-- Witness for C1 at concrete inputs: a checkout, a return and an addition
on the seed catalog all keep the invariant. -/
theorem books_invariant_preserved_witness :
    booksInvariant (checkout_book (default_books 730120) "alice" "1" 730120).books = true
    ∧ booksInvariant (return_book (default_books 730120) "student1" "student" "3").books = true
    ∧ booksInvariant (add_book (default_books 730120) "New" "Auth" "s").books = true :=
  ⟨books_invariant_preserved.2.1 (default_books 730120) "alice" "1" 730120 (by decide),
   books_invariant_preserved.2.2.1 (default_books 730120) "student1" "student" "3" (by decide),
   books_invariant_preserved.2.2.2 (default_books 730120) "New" "Auth" "s" (by decide)⟩

/-! ### C9 -/

/-- C9: `load_data` never raises; for an absent file and for a file whose
contents fail to deserialize it returns the empty default (the empty mapping
for the users store, the empty list for the books store), warning exactly in
the malformed case. -/
theorem load_data_empty_defaults :
    (∀ fs : StoreFile Users,
      ((fs = .absent ∨ fs = .malformed) → (load_users fs).result = [])
      ∧ (load_users fs).raised = false
      ∧ ((load_users fs).warned = true ↔ fs = .malformed))
    ∧ (∀ fs : StoreFile (List Book),
      ((fs = .absent ∨ fs = .malformed) → (load_books fs).result = [])
      ∧ (load_books fs).raised = false
      ∧ ((load_books fs).warned = true ↔ fs = .malformed)) := by
  constructor <;> intro fs <;>
    cases fs <;> simp [load_users, load_books, load_data]

/-- Witness for C9: a malformed users file and an absent books file both load
as the empty default. -/
theorem load_data_empty_defaults_witness :
    (load_users .malformed).result = [] ∧ (load_books .absent).result = [] :=
  ⟨(load_data_empty_defaults.1 .malformed).1 (Or.inr rfl),
   (load_data_empty_defaults.2 .absent).1 (Or.inl rfl)⟩

/-! ### C10 -/

/-- C10: on an empty catalog, `search_books` reports the empty catalog and
returns before the query prompt: the outcome never depends on the query, and
the empty-query error is unreachable. -/
theorem search_books_empty_catalog (rawQuery : String) :
    search_books [] rawQuery = .emptyCatalog
    ∧ search_books [] rawQuery ≠ .emptyQuery
    ∧ ∀ other : String, search_books [] rawQuery = search_books [] other :=
  ⟨rfl, by simp [search_books], fun other => rfl⟩

/-! ### C7 -/

/-- C7: on a nonempty catalog, search with a nonempty (lowercased, stripped)
query returns exactly the books, in storage order, whose lowercased title,
author or summary (empty when absent) contains the query; an empty query is
rejected as a user error. -/
theorem search_books_results (books : List Book) (raw : String)
    (hbooks : books ≠ []) :
    (trimStr (toLowerStr raw) ≠ "" →
      search_books books raw =
        .results (books.filter (book_matches (trimStr (toLowerStr raw))))
      ∧ ∀ b : Book,
          b ∈ books.filter (book_matches (trimStr (toLowerStr raw))) ↔
            b ∈ books ∧
              (strContains (toLowerStr b.title) (trimStr (toLowerStr raw))
               || strContains (toLowerStr b.author) (trimStr (toLowerStr raw))
               || strContains (toLowerStr (b.summary.getD ""))
                    (trimStr (toLowerStr raw))) = true)
    ∧ (trimStr (toLowerStr raw) = "" → search_books books raw = .emptyQuery) := by
  have hne : books.isEmpty = false := by
    cases books with
    | nil => exact absurd rfl hbooks
    | cons b l => rfl
  constructor
  · intro hq
    have hqe : (trimStr (toLowerStr raw)).isEmpty = false := by
      rw [Bool.eq_false_iff]
      intro hcon
      exact hq ((String.isEmpty_iff _).mp hcon)
    constructor
    · simp only [search_books, hne, Bool.false_eq_true, if_false, hqe]
    · intro b
      simp only [List.mem_filter, book_matches]
  · intro hq
    have hqe : (trimStr (toLowerStr raw)).isEmpty = true :=
      (String.isEmpty_iff _).mpr hq
    simp only [search_books, hne, Bool.false_eq_true, if_false, hqe, if_true]

/-- Witness for C7: searching the seed catalog for "Dune " finds the matching
books, and a whitespace-only query is rejected. -/
theorem search_books_results_witness :
    search_books (default_books 730120) "Dune " =
      .results ((default_books 730120).filter
        (book_matches (trimStr (toLowerStr "Dune "))))
    ∧ search_books (default_books 730120) "   " = .emptyQuery :=
  ⟨((search_books_results (default_books 730120) "Dune " (by decide)).1
      (by decide)).1,
   (search_books_results (default_books 730120) "   " (by decide)).2 (by decide)⟩

/-! ### Scan decomposition lemmas -/

theorem checkoutScan_skip (username : String) (book_id today : Nat)
    (pre rest : List Book) (hpre : ∀ b ∈ pre, b.id ≠ book_id) :
    checkoutScan username book_id today (pre ++ rest) =
      ⟨pre ++ (checkoutScan username book_id today rest).books,
       (checkoutScan username book_id today rest).result,
       (checkoutScan username book_id today rest).saved⟩ := by
  induction pre with
  | nil => rfl
  | cons b pre ih =>
    have hb : (b.id == book_id) = false := by
      rw [beq_eq_false_iff_ne]
      exact hpre b (List.mem_cons_self b pre)
    have ih2 := ih (fun x hx => hpre x (List.mem_cons_of_mem b hx))
    simp only [List.cons_append, checkoutScan, hb, Bool.false_eq_true,
      if_false, List.append_eq, ih2]

theorem returnScan_skip (username role : String) (book_id : Nat)
    (pre rest : List Book) (hpre : ∀ b ∈ pre, b.id ≠ book_id) :
    returnScan username role book_id (pre ++ rest) =
      (pre ++ (returnScan username role book_id rest).1,
       (returnScan username role book_id rest).2.1,
       (returnScan username role book_id rest).2.2) := by
  induction pre with
  | nil => rfl
  | cons b pre ih =>
    have hb : (b.id == book_id) = false := by
      rw [beq_eq_false_iff_ne]
      exact hpre b (List.mem_cons_self b pre)
    have ih2 := ih (fun x hx => hpre x (List.mem_cons_of_mem b hx))
    simp only [List.cons_append, returnScan, hb, Bool.false_eq_true,
      if_false, List.append_eq, ih2]

/-! ### C2 -/

/-- C2: checkout of an id whose first match in the collection is `Available`
flips that record's status to `Checked Out`, sets `borrower` to the caller
and `due_date` to the ISO string of today plus `BORROW_DURATION_DAYS = 14`
days, leaves every other record untouched, and persists the updated
collection. -/
theorem checkout_available_updates (pre post : List Book) (book : Book)
    (username idStr : String) (today : Nat)
    (hdigit : isdigit idStr = true)
    (hid : parseNat idStr = book.id)
    (hpre : ∀ b ∈ pre, b.id ≠ book.id)
    (hstatus : book.status = "Available") :
    checkout_book (pre ++ book :: post) username idStr today =
      ⟨pre ++ { book with
                  status := "Checked Out"
                  borrower := some username
                  due_date := some (isoformat (today + BORROW_DURATION_DAYS)) } :: post,
       .checkedOut book.title (isoformat (today + BORROW_DURATION_DAYS)),
       true⟩ := by
  unfold checkout_book
  rw [hdigit, hid]
  simp only [Bool.not_true, Bool.false_eq_true, if_false]
  rw [checkoutScan_skip username book.id today pre (book :: post) hpre]
  have hself : (book.id == book.id) = true := beq_self_eq_true book.id
  have hst : (book.status == "Available") = true := by
    rw [hstatus]
    rfl
  simp only [checkoutScan, hself, hst, if_true]

/-- Witness for C2 on a one-book catalog. -/
theorem checkout_available_updates_witness :
    checkout_book [⟨1, "T", "A", "Available", none, none, some "S"⟩]
        "alice" "1" 730120 =
      ⟨[⟨1, "T", "A", "Checked Out", some "alice", some (isoformat 730134),
         some "S"⟩],
       .checkedOut "T" (isoformat 730134), true⟩ :=
  checkout_available_updates [] [] ⟨1, "T", "A", "Available", none, none, some "S"⟩
    "alice" "1" 730120 (by decide) (by decide) (by decide) rfl

/-! ### C3 -/

/-- C3: checkout of an id whose first match is already `Checked Out` changes
no record, invokes no save, and reports unavailability with that book's
current due date. -/
theorem checkout_unavailable_frame (pre post : List Book) (book : Book)
    (username idStr : String) (today : Nat)
    (hdigit : isdigit idStr = true)
    (hid : parseNat idStr = book.id)
    (hpre : ∀ b ∈ pre, b.id ≠ book.id)
    (hstatus : book.status = "Checked Out") :
    checkout_book (pre ++ book :: post) username idStr today =
      ⟨pre ++ book :: post, .unavailable book.title book.due_date, false⟩ := by
  unfold checkout_book
  rw [hdigit, hid]
  simp only [Bool.not_true, Bool.false_eq_true, if_false]
  rw [checkoutScan_skip username book.id today pre (book :: post) hpre]
  have hself : (book.id == book.id) = true := beq_self_eq_true book.id
  have hst : (book.status == "Available") = false := by
    rw [hstatus]
    rfl
  simp only [checkoutScan, hself, hst, Bool.false_eq_true, if_true, if_false]

/-- Witness for C3 on a one-book catalog holding a checked-out book. -/
theorem checkout_unavailable_frame_witness :
    checkout_book [⟨1, "T", "A", "Checked Out", some "bob",
        some (isoformat 730100), some "S"⟩] "alice" "1" 730120 =
      ⟨[⟨1, "T", "A", "Checked Out", some "bob", some (isoformat 730100),
         some "S"⟩],
       .unavailable "T" (some (isoformat 730100)), false⟩ :=
  checkout_unavailable_frame [] []
    ⟨1, "T", "A", "Checked Out", some "bob", some (isoformat 730100), some "S"⟩
    "alice" "1" 730120 (by decide) (by decide) (by decide) rfl

/-! ### C4 -/

/-- C4: for a checked-out book whose id is entered at a reachable prompt
(some checked-out book is visible to the caller): a librarian or the recorded
borrower returns it — status becomes `Available`, borrower and due date are
cleared, the rest of the collection is untouched, and the result is
persisted; any other caller changes nothing and is denied with the actual
borrower's name. -/
theorem return_book_permissions (pre post : List Book) (book : Book)
    (username role idStr : String)
    (hdigit : isdigit idStr = true)
    (hid : parseNat idStr = book.id)
    (hpre : ∀ b ∈ pre, b.id ≠ book.id)
    (hstatus : book.status = "Checked Out")
    (hvis : borrowed_books (pre ++ book :: post) username role ≠ []) :
    ((role = "librarian" ∨ book.borrower = some username) →
      return_book (pre ++ book :: post) username role idStr =
        ⟨borrowed_books (pre ++ book :: post) username role,
         pre ++ { book with
                    status := "Available"
                    borrower := none
                    due_date := none } :: post,
         .returned book.title book.borrower, true⟩)
    ∧ (role ≠ "librarian" → book.borrower ≠ some username →
      return_book (pre ++ book :: post) username role idStr =
        ⟨borrowed_books (pre ++ book :: post) username role,
         pre ++ book :: post, .accessDenied book.borrower, false⟩) := by
  have hv : (borrowed_books (pre ++ book :: post) username role).isEmpty = false := by
    cases hvb : borrowed_books (pre ++ book :: post) username role with
    | nil => exact absurd hvb hvis
    | cons x xs => rfl
  have hself : (book.id == book.id) = true := beq_self_eq_true book.id
  have hst : (book.status == "Checked Out") = true := by
    rw [hstatus]
    rfl
  constructor
  · intro hperm
    have hpb : (role == "librarian" || book.borrower == some username) = true := by
      cases hperm with
      | inl h => rw [h]; rfl
      | inr h => rw [h]; simp
    unfold return_book
    simp only [hv, Bool.false_eq_true, if_false, hdigit, Bool.not_true]
    rw [hid, returnScan_skip username role book.id pre (book :: post) hpre]
    simp only [returnScan, hself, hst, hpb, if_true]
  · intro hrole hborrower
    have hpb : (role == "librarian" || book.borrower == some username) = false := by
      rw [Bool.or_eq_false_iff]
      constructor
      · rw [beq_eq_false_iff_ne]; exact hrole
      · rw [beq_eq_false_iff_ne]; exact hborrower
    unfold return_book
    simp only [hv, Bool.false_eq_true, if_false, hdigit, Bool.not_true]
    rw [hid, returnScan_skip username role book.id pre (book :: post) hpre]
    simp only [returnScan, hself, hst, hpb, Bool.false_eq_true, if_true, if_false]

/-- Witness for C4: the recorded borrower returns their own book (a second
checked-out book keeps the prompt reachable for the denied case too). -/
theorem return_book_permissions_witness :
    return_book [⟨1, "T", "A", "Checked Out", some "alice",
        some (isoformat 730100), some "S"⟩] "alice" "student" "1" =
      ⟨[⟨1, "T", "A", "Checked Out", some "alice", some (isoformat 730100),
         some "S"⟩],
       [⟨1, "T", "A", "Available", none, none, some "S"⟩],
       .returned "T" (some "alice"), true⟩ :=
  (return_book_permissions [] []
      ⟨1, "T", "A", "Checked Out", some "alice", some (isoformat 730100), some "S"⟩
      "alice" "student" "1" (by decide) (by decide) (by decide) rfl
      (by decide)).1 (Or.inr rfl)

/-! ### C5 -/

/-- C5: the subset `return_book` displays is exactly the checked-out books
for a librarian and exactly the caller's own checked-out books otherwise;
when it is empty the operation reports the role-dependent "nothing to
return", leaves the collection untouched, saves nothing, and never reads the
id prompt (the outcome is independent of the id input). -/
theorem return_visible_subset (books : List Book) (username role idStr : String) :
    (role = "librarian" →
      borrowed_books books username role =
        books.filter (fun b => b.status == "Checked Out"))
    ∧ (role ≠ "librarian" →
      borrowed_books books username role =
        books.filter (fun b =>
          b.status == "Checked Out" && b.borrower == some username))
    ∧ (return_book books username role idStr).displayed =
        borrowed_books books username role
    ∧ (borrowed_books books username role = [] →
      return_book books username role idStr =
        ⟨[], books, .nothingToReturn (role == "librarian"), false⟩
      ∧ ∀ other : String,
          return_book books username role idStr =
            return_book books username role other) := by
  refine ⟨?_, ?_, ?_, ?_⟩
  · intro hrole
    apply List.filter_congr
    intro b _
    rw [hrole]
    simp
  · intro hrole
    have hr : (role == "librarian") = false := by
      rw [beq_eq_false_iff_ne]; exact hrole
    apply List.filter_congr
    intro b _
    rw [hr, Bool.false_or]
  · unfold return_book
    by_cases hv : (borrowed_books books username role).isEmpty = true
    · simp only [hv, if_true]
    · rw [Bool.not_eq_true] at hv
      by_cases hd : isdigit idStr = true
      · simp only [hv, Bool.false_eq_true, if_false, hd, Bool.not_true]
      · rw [Bool.not_eq_true] at hd
        simp only [hv, Bool.false_eq_true, if_false, hd, Bool.not_false, if_true]
  · intro hempty
    have hv : (borrowed_books books username role).isEmpty = true := by
      rw [hempty]; rfl
    constructor
    · unfold return_book
      simp [hempty]
    · intro other
      unfold return_book
      simp only [hv, if_true]

/-- Witness for C5: a student with nothing checked out gets the
nothing-to-return outcome on the seed catalog. -/
theorem return_visible_subset_witness :
    return_book (default_books 730120) "bob" "student" "3" =
      ⟨[], default_books 730120, .nothingToReturn false, false⟩ :=
  ((return_visible_subset (default_books 730120) "bob" "student" "3").2.2.2
    (by decide)).1

/-! ### C6 -/

theorem seed_le_foldl_max : ∀ (is : List Nat) (i : Nat), i ≤ is.foldl Nat.max i := by
  intro is
  induction is with
  | nil => intro i; exact Nat.le_refl i
  | cons a as ih =>
    intro i
    rw [List.foldl_cons]
    exact Nat.le_trans (Nat.le_max_left i a) (ih (Nat.max i a))

theorem mem_le_foldl_max : ∀ (is : List Nat) (i : Nat), ∀ j ∈ is, j ≤ is.foldl Nat.max i := by
  intro is
  induction is with
  | nil => intro i j hj; cases hj
  | cons a as ih =>
    intro i j hj
    rw [List.foldl_cons]
    rcases List.mem_cons.mp hj with he | hm
    · rw [he]
      exact Nat.le_trans (Nat.le_max_right i a) (seed_le_foldl_max as (Nat.max i a))
    · exact ih (Nat.max i a) j hm

theorem foldl_max_mem : ∀ (is : List Nat) (i : Nat), is.foldl Nat.max i ∈ i :: is := by
  intro is
  induction is with
  | nil => intro i; exact List.mem_cons_self i []
  | cons a as ih =>
    intro i
    rw [List.foldl_cons]
    rcases List.mem_cons.mp (ih (Nat.max i a)) with he | hm
    · rw [he]
      have hch : Nat.max i a = i ∨ Nat.max i a = a := max_choice i a
      rcases hch with hch | hch
      · rw [hch]
        exact List.mem_cons_self i (a :: as)
      · rw [hch]
        exact List.mem_cons_of_mem i (List.mem_cons_self a as)
    · exact List.mem_cons_of_mem i (List.mem_cons_of_mem a hm)

/-- C6: `add_book` computes the new id as one more than the maximum existing
id (1 on an empty catalog); whenever an existing record matches the entered
title and author case-insensitively it rejects the addition, leaves the
collection unchanged, saves nothing, and reports that record's id; otherwise
it appends the new `Available` record under that id and persists. -/
theorem add_book_next_id_and_duplicates (books : List Book)
    (rawTitle rawAuthor rawSummary : String)
    (htitle : trimStr rawTitle ≠ "") (hauthor : trimStr rawAuthor ≠ "") :
    (next_id [] = 1
     ∧ (books ≠ [] →
        (∀ b ∈ books, b.id + 1 ≤ next_id books)
        ∧ ∃ b ∈ books, b.id + 1 = next_id books))
    ∧ ((∃ b ∈ books,
          toLowerStr b.title = toLowerStr (trimStr rawTitle)
          ∧ toLowerStr b.author = toLowerStr (trimStr rawAuthor)) →
       ∃ b ∈ books,
         toLowerStr b.title = toLowerStr (trimStr rawTitle)
         ∧ toLowerStr b.author = toLowerStr (trimStr rawAuthor)
         ∧ add_book books rawTitle rawAuthor rawSummary =
             ⟨books, .duplicate b.id, false⟩)
    ∧ ((∀ b ∈ books,
          ¬(toLowerStr b.title = toLowerStr (trimStr rawTitle)
            ∧ toLowerStr b.author = toLowerStr (trimStr rawAuthor))) →
       add_book books rawTitle rawAuthor rawSummary =
         ⟨books ++ [⟨next_id books, trimStr rawTitle, trimStr rawAuthor,
            "Available", none, none, some (trimStr rawSummary)⟩],
          .added (next_id books) (trimStr rawTitle) (trimStr rawAuthor),
          true⟩) := by
  have he : ((trimStr rawTitle).isEmpty || (trimStr rawAuthor).isEmpty) = false := by
    rw [Bool.or_eq_false_iff]
    constructor
    · rw [Bool.eq_false_iff]
      intro hcon
      exact htitle ((String.isEmpty_iff _).mp hcon)
    · rw [Bool.eq_false_iff]
      intro hcon
      exact hauthor ((String.isEmpty_iff _).mp hcon)
  refine ⟨⟨rfl, ?_⟩, ?_, ?_⟩
  · intro hne
    cases books with
    | nil => exact absurd rfl hne
    | cons b0 rest =>
      constructor
      · intro b hb
        show b.id + 1 ≤ (rest.map (fun x => x.id)).foldl Nat.max b0.id + 1
        apply Nat.succ_le_succ
        rcases List.mem_cons.mp hb with hb0 | hbr
        · rw [hb0]
          exact seed_le_foldl_max (rest.map (fun x => x.id)) b0.id
        · exact mem_le_foldl_max (rest.map (fun x => x.id)) b0.id b.id
            (List.mem_map_of_mem (fun x => x.id) hbr)
      · rcases List.mem_cons.mp
          (foldl_max_mem (rest.map (fun x => x.id)) b0.id) with he0 | hem
        · refine ⟨b0, List.mem_cons_self b0 rest, ?_⟩
          show b0.id + 1 = (rest.map (fun x => x.id)).foldl Nat.max b0.id + 1
          rw [he0]
        · rcases List.mem_map.mp hem with ⟨b, hbr, hbid⟩
          refine ⟨b, List.mem_cons_of_mem b0 hbr, ?_⟩
          show b.id + 1 = (rest.map (fun x => x.id)).foldl Nat.max b0.id + 1
          rw [hbid]
  · intro hex
    have hsome : (books.find? fun book =>
        toLowerStr book.title == toLowerStr (trimStr rawTitle) &&
          toLowerStr book.author == toLowerStr (trimStr rawAuthor)).isSome := by
      rw [List.find?_isSome]
      rcases hex with ⟨b, hb, ht, ha⟩
      refine ⟨b, hb, ?_⟩
      rw [Bool.and_eq_true, beq_iff_eq, beq_iff_eq]
      exact ⟨ht, ha⟩
    rcases Option.isSome_iff_exists.mp hsome with ⟨b, hfind⟩
    have hp := List.find?_some hfind
    rw [Bool.and_eq_true, beq_iff_eq, beq_iff_eq] at hp
    refine ⟨b, List.mem_of_find?_eq_some hfind, hp.1, hp.2, ?_⟩
    unfold add_book find_duplicate
    simp only [he, Bool.false_eq_true, if_false, hfind]
  · intro hall
    have hnone : find_duplicate books (trimStr rawTitle) (trimStr rawAuthor) = none := by
      unfold find_duplicate
      rw [List.find?_eq_none]
      intro b hb
      rw [Bool.not_eq_true, Bool.and_eq_false_iff]
      by_cases ht : toLowerStr b.title = toLowerStr (trimStr rawTitle)
      · right
        rw [beq_eq_false_iff_ne]
        intro ha
        exact hall b hb ⟨ht, ha⟩
      · left
        rw [beq_eq_false_iff_ne]
        exact ht
    unfold add_book
    simp only [he, Bool.false_eq_true, if_false, hnone]

/-- Witness for C6: adding a fresh (title, author) to a one-book catalog
assigns id 2 and appends the record. -/
theorem add_book_next_id_and_duplicates_witness :
    add_book [⟨1, "Dune", "Frank Herbert", "Available", none, none, some "s"⟩]
        "New " "Auth" " sum" =
      ⟨[⟨1, "Dune", "Frank Herbert", "Available", none, none, some "s"⟩,
        ⟨2, "New", "Auth", "Available", none, none, some "sum"⟩],
       .added 2 "New" "Auth", true⟩ :=
  (add_book_next_id_and_duplicates
      [⟨1, "Dune", "Frank Herbert", "Available", none, none, some "s"⟩]
      "New " "Auth" " sum" (by decide) (by decide)).2.2 (by decide)

/-! ### C8 -/

theorem loginAttempts_cons_ok (users : Users) (n : Nat) (p : String × String)
    (rest : List (String × String)) (h : credOk users p = true) :
    ∃ d : User, lookupUser users (trimStr p.1) = some d
      ∧ d.password = trimStr p.2
      ∧ loginAttempts users (n + 1) (p :: rest) = .success (trimStr p.1) d.role := by
  cases hl : lookupUser users (trimStr p.1) with
  | none =>
    simp only [credOk, hl] at h
    exact Bool.noConfusion h
  | some d =>
    simp only [credOk, hl] at h
    refine ⟨d, rfl, eq_of_beq h, ?_⟩
    simp only [loginAttempts, hl, h, if_true]

theorem loginAttempts_cons_fail (users : Users) (n : Nat) (p : String × String)
    (rest : List (String × String)) (h : credOk users p = false) :
    loginAttempts users (n + 1) (p :: rest) = loginAttempts users n rest := by
  cases hl : lookupUser users (trimStr p.1) with
  | none => simp only [loginAttempts, hl]
  | some d =>
    simp only [credOk, hl] at h
    simp only [loginAttempts, hl, h, Bool.false_eq_true, if_false]

theorem loginAttempts_spec (users : Users) :
    ∀ (n : Nat) (inputs : List (String × String)), n ≤ inputs.length →
      ((∃ u r, loginAttempts users n inputs = .success u r) ↔
         ∃ p ∈ inputs.take n, credOk users p = true)
      ∧ ((∀ p ∈ inputs.take n, credOk users p = false) →
         loginAttempts users n inputs = .lockedOut)
      ∧ (∀ u r, loginAttempts users n inputs = .success u r →
         ∃ p ∈ inputs.take n, u = trimStr p.1
           ∧ lookupUser users u = some ⟨trimStr p.2, r⟩) := by
  intro n
  induction n with
  | zero =>
    intro inputs _
    refine ⟨?_, fun _ => rfl, ?_⟩
    · simp [loginAttempts]
    · intro u r h
      exact absurd h (by simp [loginAttempts])
  | succ n ih =>
    intro inputs hlen
    cases inputs with
    | nil => exact absurd hlen (by simp)
    | cons p rest =>
      have hlen2 : n ≤ rest.length := Nat.le_of_succ_le_succ hlen
      have ihr := ih rest hlen2
      rw [List.take_succ_cons]
      cases hc : credOk users p with
      | true =>
        obtain ⟨d, hl, hpw, hres⟩ := loginAttempts_cons_ok users n p rest hc
        refine ⟨?_, ?_, ?_⟩
        · constructor
          · intro _
            exact ⟨p, List.mem_cons_self p (rest.take n), hc⟩
          · intro _
            exact ⟨trimStr p.1, d.role, hres⟩
        · intro hall
          exact absurd hc (by rw [hall p (List.mem_cons_self p (rest.take n))]; simp)
        · intro u r h
          rw [hres] at h
          injection h with hu hr
          refine ⟨p, List.mem_cons_self p (rest.take n), hu.symm, ?_⟩
          rw [← hu, hl, ← hpw, ← hr]
      | false =>
        have hres := loginAttempts_cons_fail users n p rest hc
        rw [hres]
        refine ⟨?_, ?_, ?_⟩
        · rw [ihr.1]
          constructor
          · rintro ⟨q, hq, hcq⟩
            exact ⟨q, List.mem_cons_of_mem p hq, hcq⟩
          · rintro ⟨q, hq, hcq⟩
            rcases List.mem_cons.mp hq with he0 | hm
            · rw [he0] at hcq
              exact absurd hcq (by rw [hc]; simp)
            · exact ⟨q, hm, hcq⟩
        · intro hall
          exact ihr.2.1 fun q hq => hall q (List.mem_cons_of_mem p hq)
        · intro u r h
          rcases ihr.2.2 u r h with ⟨q, hq, hq1, hq2⟩
          exact ⟨q, List.mem_cons_of_mem p hq, hq1, hq2⟩

/-- C8: with a nonempty users store and at least three prompt answers
available, `login` returns a session exactly when one of the first three
(username, password) answers matches a stored user's plaintext password; the
returned pair is that user's name and stored role, and when all three
attempts fail the process terminates without a session. -/
theorem login_retry_limit (users : Users) (inputs : List (String × String))
    (husers : users ≠ []) (hlen : 3 ≤ inputs.length) :
    ((∃ u r, login users inputs = .success u r) ↔
      ∃ p ∈ inputs.take 3, credOk users p = true)
    ∧ ((∀ p ∈ inputs.take 3, credOk users p = false) →
      login users inputs = .lockedOut)
    ∧ (∀ u r, login users inputs = .success u r →
      ∃ p ∈ inputs.take 3, u = trimStr p.1
        ∧ lookupUser users u = some ⟨trimStr p.2, r⟩) := by
  have hu : users.isEmpty = false := by
    cases users with
    | nil => exact absurd rfl husers
    | cons a l => rfl
  have h := loginAttempts_spec users 3 inputs hlen
  unfold login
  rw [hu]
  simpa using h

/-- Witness for C8: three wrong attempts against the seed users lock the
process out. -/
theorem login_retry_limit_witness :
    login default_users [("a", "b"), ("c", "d"), ("e", "f")] = .lockedOut :=
  (login_retry_limit default_users [("a", "b"), ("c", "d"), ("e", "f")]
    (by decide) (by decide)).2.1 (by decide)

end LibraryMS
